import Mathlib

/-!
Verification of the bias/neutrality scoring engine of `src/week7.py`
(EchoChamber repository).

Modelling conventions:
* Python `str` values are modelled as `List Char`; `str.lower()` is the
  ASCII `Char.toLower`; `\w`, `\s` are modelled over their ASCII ranges.
* Python floats are modelled as exact rationals (`ℚ`).  Every threshold
  constant used by the code (0.3, 1.5, 0.85, ...) has a small decimal
  numerator/denominator, so the rational model agrees with IEEE doubles
  at every comparison the code performs on its documented input domain.
* Python dicts with a statically-known key set are modelled as structures.
  A key that is absent on some code path is modelled as an `Option` field
  (`none` = missing key), and reading a possibly-missing key yields
  `Except` (a `KeyError` becomes `Except.error`).
* The regexes of `BIAS_PATTERNS` / `NEUTRALITY_PATTERNS` all have the form
  `\b(alt|...|alt)(\s+(alt|...|alt))*` optionally followed by `\s+\w+` or a
  closing `\b`; they are modelled by an ordered-alternation backtracking
  matcher (`matchSeq`) together with a left-to-right non-overlapping
  scanner (`scanText`) that mirrors `re.finditer` / `re.findall`.
-/

/-- ASCII model of the regex class `\w` (word character). -/
def isWordChar (c : Char) : Bool := c.isAlphanum || c = '_'

/-- ASCII model of the regex class `\s` (whitespace). -/
def isSpaceChar (c : Char) : Bool :=
  c = ' ' || c = '\t' || c = '\n' || c = '\r' || c = '\x0b' || c = '\x0c'

/-- Case-insensitive literal match: `litAt s w = some n` when the
lowercased text suffix `s` starts with the (already lowercase) word `w`,
consuming `n = w.length` characters. -/
def litAt : List Char → List Char → Option Nat
  | _, [] => some 0
  | [], _ :: _ => none
  | d :: s, c :: w => if d.toLower = c then (litAt s w).map (· + 1) else none

/-- Maximal run of whitespace characters at the front of a list:
returns the run length and the remaining suffix (models greedy `\s+`
whose continuation always starts with a non-space character). -/
def spacesRun : List Char → Nat × List Char
  | [] => (0, [])
  | c :: s =>
    if isSpaceChar c then ((spacesRun s).1 + 1, (spacesRun s).2) else (0, c :: s)

/-- Maximal run of word characters at the front of a list (greedy `\w+`). -/
def wordRun : List Char → Nat × List Char
  | [] => (0, [])
  | c :: s =>
    if isWordChar c then ((wordRun s).1 + 1, (wordRun s).2) else (0, c :: s)

/-- A pattern of the shape used throughout `week7.py`:
`\b(g₁ alts)\s+(g₂ alts)\s+...` with an optional trailing `\s+\w+`
(`tailWord`, used by the `strong_claims` pattern) or a trailing `\b`
(`closeB`).  Alternatives are stored lowercase, in source order. -/
structure RPat where
  groups : List (List (List Char))
  tailWord : Bool
  closeB : Bool
deriving DecidableEq

/-- Ordered-alternation matching of a sequence of alternative-groups
separated by `\s+`, at the head of the suffix `s`.  Alternatives are
tried in order and the matcher backtracks to the next alternative when
the rest of the pattern fails, exactly like Python `re` alternation.
Returns the number of characters consumed. -/
def matchSeq : List (List (List Char)) → List Char → Option Nat
  | [], _ => some 0
  | g :: gs, s =>
    g.findSome? fun w =>
      match litAt s w with
      | none => none
      | some n =>
        match gs with
        | [] => some n
        | _ :: _ =>
          let sp := spacesRun (s.drop n)
          if sp.1 = 0 then none
          else (matchSeq gs sp.2).map fun k => n + sp.1 + k

/-- Match a whole pattern at the head of suffix `s`, where `prevW` says
whether the character just before `s` is a word character (`false` at
the start of the text).  Since every alternative starts and ends with a
word character, the leading `\b` holds iff `prevW = false`, and a
trailing `\b` holds iff the next character is absent or not a word
character.  (No group of the source's patterns contains one alternative
that is a proper prefix of another, so checking `tailWord`/`closeB`
after `matchSeq` commits is equivalent to full backtracking.) -/
def matchPat (p : RPat) (prevW : Bool) (s : List Char) : Option Nat :=
  if prevW then none
  else
    match matchSeq p.groups s with
    | none => none
    | some n =>
      if p.tailWord then
        let sp := spacesRun (s.drop n)
        if sp.1 = 0 then none
        else
          let wr := wordRun sp.2
          if wr.1 = 0 then none else some (n + sp.1 + wr.1)
      else if p.closeB then
        match (s.drop n).head? with
        | none => some n
        | some c => if isWordChar c then none else some n
      else some n

/-- Left-to-right scan of the text yielding the non-overlapping match
spans `(start, end)` in order, as `re.finditer` does: after a match the
scan resumes at the match's end (`minPos` carries that bound so that the
recursion stays structural on the text). -/
def scanText (p : RPat) : Bool → List Char → Nat → Nat → List (Nat × Nat)
  | _, [], _, _ => []
  | prevW, c :: s, pos, minPos =>
    if pos < minPos then scanText p (isWordChar c) s (pos + 1) minPos
    else
      match matchPat p prevW (c :: s) with
      | some n => (pos, pos + n) :: scanText p (isWordChar c) s (pos + 1) (pos + max n 1)
      | none => scanText p (isWordChar c) s (pos + 1) minPos

/-- All match spans of pattern `p` in text `t` (the spans of
`p.finditer(t)` / the count of `p.findall(t)`). -/
def patMatches (p : RPat) (t : List Char) : List (Nat × Nat) :=
  scanText p false t 0 0

/-- `needle` occurs at the head of `hay` (already-lowercased lists). -/
def startsWithChars : List Char → List Char → Bool
  | [], _ => true
  | _ :: _, [] => false
  | c :: cs, d :: ds => c = d && startsWithChars cs ds

/-- Python's `needle in hay` substring test. -/
def containsSub (needle : List Char) : List Char → Bool
  | [] => needle.isEmpty
  | d :: ds => startsWithChars needle (d :: ds) || containsSub needle ds

/-- Lowercase a whole text (Python `str.lower()`, ASCII fragment). -/
def toLowerList (l : List Char) : List Char := l.map Char.toLower

/-- Python slice `t[a:b]` for `a ≤ b` (`a` already clamped to `≥ 0` by
`Nat` subtraction at call sites, `b` already clamped to `≤ len`). -/
def sliceChars (t : List Char) (a b : Nat) : List Char := (t.drop a).take (b - a)

/-- Python `str.strip()`: drop whitespace from both ends. -/
def stripChars (l : List Char) : List Char :=
  ((l.dropWhile isSpaceChar).reverse.dropWhile isSpaceChar).reverse

/-! ### The fixed pattern tables of `week7.py` (`BIAS_PATTERNS`,
`NEUTRALITY_PATTERNS`, `CITATION_PATTERN`), alternatives in source order,
stored lowercase (all the source regexes are compiled with
`re.IGNORECASE`). -/

/-- Word list helper: alternatives of one group. -/
def wl (l : List String) : List (List Char) := l.map String.data

/-- `\b(alt|...)\b` (single group, both boundaries). -/
def wordPat (alts : List String) : RPat := ⟨[wl alts], false, true⟩

/-- `\b(g₁)\s+(g₂)` (no trailing boundary). -/
def seqPat2 (g1 g2 : List String) : RPat := ⟨[wl g1, wl g2], false, false⟩

/-- `\b(g₁)\s+(g₂)\b`. -/
def seqPat2B (g1 g2 : List String) : RPat := ⟨[wl g1, wl g2], false, true⟩

/-- `\b(g₁)\s+(g₂)\s+(g₃)` (no trailing boundary). -/
def seqPat3 (g1 g2 g3 : List String) : RPat := ⟨[wl g1, wl g2, wl g3], false, false⟩

/-- `\b(g₁)\s+(g₂)\s+(g₃)\b`. -/
def seqPat3B (g1 g2 g3 : List String) : RPat := ⟨[wl g1, wl g2, wl g3], false, true⟩

def lp1 : RPat := wordPat ["clearly", "obviously", "undoubtedly", "certainly", "definitely", "undeniably"]
def lp2 : RPat := seqPat2 ["should", "must", "ought to", "need to"] ["always", "never", "only"]
def lp3 : RPat := wordPat ["terrible", "awful", "horrible", "disastrous", "catastrophic"]
def lp4 : RPat := wordPat ["amazing", "incredible", "fantastic", "brilliant", "perfect"]
def lp5 : RPat := wordPat ["controversial", "disputed", "questionable", "dubious"]

def op1 : RPat := seqPat2B ["i", "we", "our", "us"] ["believe", "think", "feel", "argue", "claim", "assert"]
def op2 : RPat := seqPat3B ["many", "most", "some"] ["people", "experts", "scientists"] ["believe", "think", "argue"]
/-- `\b(it is|it's)\s+(widely|commonly|generally)\s+(believed|thought|accepted)\b` -/
def op3 : RPat :=
  ⟨[["it is".data, ['i', 't', '\'', 's']],
    wl ["widely", "commonly", "generally"],
    wl ["believed", "thought", "accepted"]], false, true⟩

def un1 : RPat := seqPat2 ["only", "merely", "just", "simply"] ["because", "due to", "as a result of"]
def un2 : RPat := seqPat3 ["without", "lacking", "missing"] ["any", "adequate", "sufficient", "proper"] ["evidence", "proof", "support"]
def un3 : RPat := seqPat2 ["completely", "totally", "entirely"] ["wrong", "incorrect", "false", "untrue"]

def po1 : RPat := wordPat ["left-wing", "right-wing", "liberal", "conservative", "progressive", "reactionary"]
def po2 : RPat := seqPat2 ["radical", "extremist", "fringe", "mainstream"] ["view", "position", "stance"]
def po3 : RPat := wordPat ["propaganda", "agenda", "ideology", "doctrine"]

/-- `BIAS_PATTERNS`: the four categories with their pattern lists, in the
source's (insertion-ordered dict) order. -/
def BIAS_PATTERNS : List (List Char × List RPat) :=
  [("loaded_language".data, [lp1, lp2, lp3, lp4, lp5]),
   ("opinionated".data, [op1, op2, op3]),
   ("unbalanced".data, [un1, un2, un3]),
   ("political".data, [po1, po2, po3])]

/-- `NEUTRALITY_PATTERNS["strong_claims"]`:
`\b(proves|demonstrates|shows|indicates)\s+\w+`. -/
def strongClaimsPat : RPat :=
  ⟨[wl ["proves", "demonstrates", "shows", "indicates"]], true, false⟩

/-- `NEUTRALITY_PATTERNS["counterpoints"]`. -/
def counterpointsPat : RPat :=
  wordPat ["however", "although", "though", "while", "some", "critics", "opponents",
           "but", "alternatively", "conversely", "on the other hand", "nevertheless", "yet"]

/-- `NEUTRALITY_PATTERNS["loaded_terms"]`. -/
def loadedTermsPat : RPat :=
  wordPat ["clearly", "obviously", "undoubtedly", "certainly", "definitely"]

/-- `NEUTRALITY_PATTERNS["pov_indicators"]`: `\b(we|our|us|I)\s+(believe|think|feel|argue|claim)\b`. -/
def povPat : RPat := seqPat2B ["we", "our", "us", "i"] ["believe", "think", "feel", "argue", "claim"]

/-- `NEUTRALITY_PATTERNS["one_sided"]`. -/
def oneSidedPats : List RPat :=
  [seqPat2 ["always", "never", "all", "every", "none", "no one"] ["agrees", "supports", "believes"],
   seqPat3 ["universally", "widely", "generally"] ["accepted", "agreed", "recognized"] ["without", "with no"],
   seqPat3 ["no", "little", "minimal"] ["evidence", "support", "proof"] ["for", "against"]]

/-! ### Citation Counter (`count_citations`, `CITATION_PATTERN = <ref[^>]*>`) -/

/-- Maximal run of characters other than `>` (greedy `[^>]*`). -/
def nonGtRun : List Char → Nat × List Char
  | [] => (0, [])
  | c :: s =>
    if c = '>' then (0, c :: s) else ((nonGtRun s).1 + 1, (nonGtRun s).2)

/-- Match `<ref[^>]*>` (case-insensitive) at the head of `s`, returning
the number of characters consumed. -/
def citMatchAt (s : List Char) : Option Nat :=
  match litAt s ("<ref".data) with
  | none => none
  | some n =>
    let r := nonGtRun (s.drop n)
    match r.2 with
    | '>' :: _ => some (n + r.1 + 1)
    | _ => none

/-- Non-overlapping left-to-right scan counting `<ref[^>]*>` matches
(`CITATION_PATTERN.findall(text)`); `minPos` carries the end of the last
match so the recursion is structural. -/
def citScan : List Char → Nat → Nat → Nat
  | [], _, _ => 0
  | c :: s, pos, minPos =>
    if pos < minPos then citScan s (pos + 1) minPos
    else
      match citMatchAt (c :: s) with
      | some n => 1 + citScan s (pos + 1) (pos + max n 1)
      | none => citScan s (pos + 1) minPos

/-- `count_citations(text)`: `0` for empty text, otherwise the number of
`<ref[^>]*>` matches. -/
def count_citations (t : List Char) : Nat :=
  if t.isEmpty then 0 else citScan t 0 0

/-! ### Bias Phrase Detector (`detect_biased_phrases`) -/

/-- One entry of the `biased_phrases` list: category, matched text, and
the surrounding context (50 characters each side, clipped to the text
bounds, then `strip()`ped). -/
structure PhraseMatch where
  category : List Char
  phrase : List Char
  context : List Char
deriving DecidableEq

/-- Build the `biased_phrases` dict entry for a match span `sp` of
category `cat` in text `t` (source lines 314-322: `start = max(0,
match.start()-50)`, `end = min(len(text), match.end()+50)`,
`context.strip()`).  `Nat` subtraction gives the `max(0, ·)` clamp. -/
def mkPhraseMatch (cat : List Char) (t : List Char) (sp : Nat × Nat) : PhraseMatch :=
  ⟨cat, sliceChars t sp.1 sp.2,
   stripChars (sliceChars t (sp.1 - 50) (min t.length (sp.2 + 50)))⟩

/-- All matches of all patterns of all categories, with their category
and span, in category-then-pattern-then-position order (the iteration
order of the source's nested loops at lines 310-323). -/
def biasSpanList (t : List Char) : List (List Char × (Nat × Nat)) :=
  (BIAS_PATTERNS.map fun cp =>
    (cp.2.map fun p => (patMatches p t).map fun sp => (cp.1, sp)).flatten).flatten

/-- The spans (start, end) of every match `detect_biased_phrases` records
and counts. -/
def biasSpans (t : List Char) : List (Nat × Nat) :=
  (biasSpanList t).map Prod.snd

/-- Result dict of `detect_biased_phrases`. -/
structure BiasAssessment where
  bias_score : ℚ
  biased_phrases : List PhraseMatch
  bias_count : Nat
deriving DecidableEq

/-- `detect_biased_phrases(text)` (source lines 268-333): empty text
returns zeros; otherwise every match is recorded, `bias_count` is the
total match count, `bias_score = bias_count / max(text_length/1000, 1)`,
and the returned phrase list is truncated to the first 10 matches. -/
def detect_biased_phrases (t : List Char) : BiasAssessment :=
  if t.isEmpty then ⟨0, [], 0⟩
  else
    let ms := (biasSpanList t).map fun csp => mkPhraseMatch csp.1 t csp.2
    let n := ms.length
    ⟨if 0 < t.length then (n : ℚ) / max ((t.length : ℚ) / 1000) 1 else 0,
     ms.take 10, n⟩

/-! ### Neutrality Analyzer (`analyze_neutrality_alignment`) -/

/-- One entry of the `violations` list. -/
structure Violation where
  vtype : List Char
  description : List Char
  severity : List Char
deriving DecidableEq

/-- Result dict of `analyze_neutrality_alignment`.  The early return for
empty text (source line 342) builds a dict WITHOUT the
`violation_count` key, hence the `Option`. -/
structure NeutralityResult where
  neutrality_score : ℚ
  violations : List Violation
  compliance : List Char
  violation_count : Option Nat
deriving DecidableEq

/-- Severity weight used when reducing the neutrality score:
high = 0.25, medium = 0.15, anything else = 0.10. -/
def severityWeight (v : Violation) : ℚ :=
  if v.severity = "high".data then 0.25
  else if v.severity = "medium".data then 0.15
  else 0.10

/-- `analyze_neutrality_alignment(text)` (source lines 336-433).  The
f-string descriptions interpolate integer counts via `toString`. -/
def analyze_neutrality_alignment (t : List Char) : NeutralityResult :=
  if t.isEmpty then ⟨1, [], "good".data, none⟩
  else
    let strong := (patMatches strongClaimsPat t).length
    let counter := (patMatches counterpointsPat t).length
    let v1 : List Violation :=
      if 3 ≤ strong then
        if counter = 0 then
          [⟨"missing_counterpoints".data,
            ("Text contains " ++ toString strong ++
             " strong claims but no counterpoint indicators").data,
            "medium".data⟩]
        else if (counter : ℚ) < (strong : ℚ) * 0.3 then
          [⟨"missing_counterpoints".data,
            ("Text contains " ++ toString strong ++ " strong claims but only " ++
             toString counter ++ " counterpoint indicators").data,
            "medium".data⟩]
        else []
      else []
    let v2 : List Violation :=
      if oneSidedPats.any (fun p => !(patMatches p t).isEmpty) then
        [⟨"one_sided_argument".data,
          "Text contains one-sided argument indicators".data, "medium".data⟩]
      else []
    let loaded := (patMatches loadedTermsPat t).length
    let v3 : List Violation :=
      if 3 < loaded then
        [⟨"excessive_loaded_language".data,
          ("Text contains " ++ toString loaded ++ " instances of loaded language").data,
          "low".data⟩]
      else if 1 < loaded ∧ t.length < 200 then
        [⟨"excessive_loaded_language".data,
          ("Text contains " ++ toString loaded ++
           " instances of loaded language in short text").data,
          "low".data⟩]
      else []
    let pov := (patMatches povPat t).length
    let v4 : List Violation :=
      if 0 < pov then
        [⟨"first_person_pov".data,
          ("Text contains " ++ toString pov ++ " first-person statements").data,
          "high".data⟩]
      else []
    let violations := v1 ++ v2 ++ v3 ++ v4
    let red : ℚ := violations.foldl
      (fun acc v =>
        if v.severity = "high".data then acc + 0.25
        else if v.severity = "medium".data then acc + 0.15
        else acc + 0.10) 0
    let score := max 0 (1 - red)
    let compliance :=
      if 0.85 ≤ score then "good".data
      else if 0.65 ≤ score then "moderate".data
      else "poor".data
    ⟨score, violations, compliance, some violations.length⟩

/-! ### Revision records and author classification -/

/-- The nested `slots.main` dict of a revision (keys `content` / `*`;
`none` = key absent). -/
structure MainSlot where
  content : Option (List Char)
  star : Option (List Char)
deriving DecidableEq

/-- The `slots` dict of a revision. -/
structure Slots where
  main : Option MainSlot
deriving DecidableEq

/-- A revision record as consumed by the core (the dict keys the code
reads; `none` = key absent; `star` is the top-level `*` key). -/
structure Revision where
  revid : Option Nat
  timestamp : Option (List Char)
  user : Option (List Char)
  flags : Option (List Char)
  tags : Option (List (List Char))
  slots : Option Slots
  content : Option (List Char)
  star : Option (List Char)
deriving DecidableEq

/-- Content extraction of `analyze_content_changes` (source lines
174-178): prefer `slots.main.content`, then `slots.main.*`, then the
top-level `content`, then the top-level `*`; first non-empty wins,
absent keys default to the empty string. -/
def extractContent (rev : Revision) : List Char :=
  let fromSlots : List Char :=
    match rev.slots with
    | some sl =>
      let m := sl.main.getD ⟨none, none⟩
      let c := m.content.getD []
      if c.isEmpty then m.star.getD [] else c
    | none => []
  if fromSlots.isEmpty then
    let c := rev.content.getD []
    if c.isEmpty then rev.star.getD [] else c
  else fromSlots

/-- `is_bot_revision(rev)` (source lines 132-152): `bot` substring in
the flags, then in any tag, then one of the four indicator substrings in
the lowercased username. -/
def is_bot_revision (rev : Revision) : Bool :=
  let flags := rev.flags.getD []
  if !flags.isEmpty && containsSub "bot".data (toLowerList flags) then true
  else if (rev.tags.getD []).any (fun tg => containsSub "bot".data (toLowerList tg)) then true
  else
    let uname := toLowerList (rev.user.getD [])
    ["bot".data, "automated".data, "script".data, "maintenance".data].any
      (fun ind => containsSub ind uname)

/-! ### Revision-Series Analyzer (`analyze_content_changes`) -/

/-- Entry of `size_changes`. -/
structure SizeChange where
  rev_id : Option Nat
  timestamp : Option (List Char)
  size_delta : Int
  is_bot : Bool
  user : List Char
deriving DecidableEq

/-- Entry of `citation_changes`. -/
structure CitationChange where
  rev_id : Option Nat
  timestamp : Option (List Char)
  citation_delta : Int
  is_bot : Bool
  user : List Char
deriving DecidableEq

/-- Entry of `bias_phrase_analysis`. -/
structure BiasPhraseEntry where
  rev_id : Option Nat
  timestamp : Option (List Char)
  bias_count : Nat
  bias_score : ℚ
  bias_delta : Int
  is_bot : Bool
  user : List Char
  biased_phrases : List PhraseMatch
deriving DecidableEq

/-- Entry of `neutrality_analysis`. -/
structure NeutralityEntry where
  rev_id : Option Nat
  timestamp : Option (List Char)
  neutrality_score : ℚ
  neutrality_delta : ℚ
  compliance : List Char
  violation_count : Nat
  is_bot : Bool
  user : List Char
  violations : List Violation
deriving DecidableEq

/-- Entry of `content_amplification`. -/
structure Amplification where
  rev_id : Option Nat
  timestamp : Option (List Char)
  size_increase : Int
  is_bot : Bool
  user : List Char
deriving DecidableEq

/-- Entry of `bias_indicators` (produced only by `detect_bias_patterns`). -/
structure BiasIndicator where
  itype : List Char
  description : List Char
  severity : List Char
deriving DecidableEq

/-- The `content_analysis` dict built by `analyze_content_changes`.
`edit_frequency` is the defaultdict with keys `bot` / `human`. -/
structure ContentAnalysis where
  size_changes : List SizeChange
  citation_changes : List CitationChange
  edit_frequency_bot : Nat
  edit_frequency_human : Nat
  content_amplification : List Amplification
  bias_indicators : List BiasIndicator
  bias_phrase_analysis : List BiasPhraseEntry
  neutrality_analysis : List NeutralityEntry
deriving DecidableEq

/-- Python `rev.get("user", "Unknown")`. -/
def userOrUnknown (rev : Revision) : List Char := rev.user.getD ("Unknown".data)

/-- The `size_changes` entry of one revision (empty when there is no
previous size yet). -/
def stepSize (rev : Revision) (cur : Nat) : Option Nat → List SizeChange
  | some ps => [⟨rev.revid, rev.timestamp, (cur : Int) - (ps : Int), is_bot_revision rev, userOrUnknown rev⟩]
  | none => []

/-- The `citation_changes` entry of one revision. -/
def stepCit (rev : Revision) (cur : Nat) : Option Nat → List CitationChange
  | some pc => [⟨rev.revid, rev.timestamp, (cur : Int) - (pc : Int), is_bot_revision rev, userOrUnknown rev⟩]
  | none => []

/-- The `bias_phrase_analysis` entry of one revision (stores the top 3
phrase examples). -/
def stepBias (rev : Revision) (ba : BiasAssessment) : Option Nat → List BiasPhraseEntry
  | some pb =>
    [⟨rev.revid, rev.timestamp, ba.bias_count, ba.bias_score,
      (ba.bias_count : Int) - (pb : Int), is_bot_revision rev, userOrUnknown rev,
      ba.biased_phrases.take 3⟩]
  | none => []

/-- The `neutrality_analysis` entry of one revision.  Building it reads
`neutrality_analysis["violation_count"]` (source line 232); when the
empty-text result lacks that key the read raises `KeyError`. -/
def stepNeu (rev : Revision) (na : NeutralityResult) :
    Option ℚ → Except (List Char) (List NeutralityEntry)
  | none => .ok []
  | some pn =>
    match na.violation_count with
    | none => .error ("KeyError: violation_count".data)
    | some vc =>
      .ok [⟨rev.revid, rev.timestamp, na.neutrality_score,
            na.neutrality_score - pn, na.compliance, vc, is_bot_revision rev,
            userOrUnknown rev, na.violations.take 2⟩]

/-- The `content_amplification` entry of one revision: recorded when
`current_size > (prev_size or 0) * 1.5` (source line 244), with
`size_increase = current_size - (prev_size or 0)`. -/
def stepAmp (rev : Revision) (cur : Nat) (pS : Option Nat) : List Amplification :=
  if (cur : ℚ) > ((pS.getD 0 : Nat) : ℚ) * 1.5 then
    [⟨rev.revid, rev.timestamp, (cur : Int) - ((pS.getD 0 : Nat) : Int),
      is_bot_revision rev, userOrUnknown rev⟩]
  else []

/-- The revision loop of `analyze_content_changes` (source lines
172-254), with the previous-step size / citation count / bias count /
neutrality score threaded as state (`none` = still unset). -/
def analyzeLoop : List Revision → Option Nat → Option Nat → Option Nat → Option ℚ →
    Except (List Char) ContentAnalysis
  | [], _, _, _, _ => .ok ⟨[], [], 0, 0, [], [], [], []⟩
  | rev :: rest, pS, pC, pB, pN =>
    match stepNeu rev (analyze_neutrality_alignment (extractContent rev)) pN with
    | .error e => .error e
    | .ok neuEntry =>
      match analyzeLoop rest (some (extractContent rev).length)
          (some (count_citations (extractContent rev)))
          (some (detect_biased_phrases (extractContent rev)).bias_count)
          (some (analyze_neutrality_alignment (extractContent rev)).neutrality_score) with
      | .error e => .error e
      | .ok ca =>
        .ok ⟨stepSize rev (extractContent rev).length pS ++ ca.size_changes,
             stepCit rev (count_citations (extractContent rev)) pC ++ ca.citation_changes,
             (if is_bot_revision rev then 1 else 0) + ca.edit_frequency_bot,
             (if is_bot_revision rev then 0 else 1) + ca.edit_frequency_human,
             stepAmp rev (extractContent rev).length pS ++ ca.content_amplification,
             ca.bias_indicators,
             stepBias rev (detect_biased_phrases (extractContent rev)) pB ++ ca.bias_phrase_analysis,
             neuEntry ++ ca.neutrality_analysis⟩

/-- `analyze_content_changes(revs)`: the loop started with all
previous-step state unset. -/
def analyze_content_changes (revs : List Revision) : Except (List Char) ContentAnalysis :=
  analyzeLoop revs none none none none

/-! ### Bias-Pattern Aggregator (`detect_bias_patterns`, source lines
436-574).  Each check is one `if` block of the source, in order; the
f-strings' numeric interpolations are elided from the description
strings (they are presentational only). -/

/-- `bot_ratio = edit_frequency["bot"] / total_edits if total_edits > 0
else 0` (source line 442). -/
def bot_fraction (ca : ContentAnalysis) : ℚ :=
  let total := ca.edit_frequency_bot + ca.edit_frequency_human
  if 0 < total then (ca.edit_frequency_bot : ℚ) / (total : ℚ) else 0

/-- Check 1 (source lines 444-449): `high_bot_ratio` when the bot ratio
exceeds 0.3; severity high above 0.6, medium above 0.4, else low. -/
def checkHighBotShare (ca : ContentAnalysis) : List BiasIndicator :=
  if bot_fraction ca > 0.3 then
    [⟨"high_bot_ratio".data,
      "Significant bot edit ratio may indicate automated bias".data,
      (if bot_fraction ca > 0.6 then "high"
       else if bot_fraction ca > 0.4 then "medium" else "low").data⟩]
  else []

/-- Mean of a list of rationals (used only on non-empty lists). -/
def meanQ (l : List ℚ) : ℚ := l.sum / (l.length : ℚ)

/-- Check 2 (source lines 452-464): `citation_bias` when bot and human
mean citation deltas differ by more than 1 (medium above 2, else low). -/
def checkCitationBias (ca : ContentAnalysis) : List BiasIndicator :=
  let bots := ca.citation_changes.filter (·.is_bot)
  let hums := ca.citation_changes.filter (fun c => !c.is_bot)
  if !bots.isEmpty && !hums.isEmpty then
    let bavg := meanQ (bots.map fun c => (c.citation_delta : ℚ))
    let havg := meanQ (hums.map fun c => (c.citation_delta : ℚ))
    if |bavg - havg| > 1 then
      [⟨"citation_bias".data,
        "Bots and humans show different citation patterns".data,
        (if |bavg - havg| > 2 then "medium" else "low").data⟩]
    else []
  else []

/-- Check 3 (source lines 467-473): `content_amplification_bias` when
bot amplifications exceed 50% of all amplification events (medium above
80%, else low). -/
def checkAmplificationBias (ca : ContentAnalysis) : List BiasIndicator :=
  let bots := ca.content_amplification.filter (·.is_bot)
  if (bots.length : ℚ) > (ca.content_amplification.length : ℚ) * 0.5 then
    [⟨"content_amplification_bias".data,
      "Bots responsible for content amplifications".data,
      (if (bots.length : ℚ) > (ca.content_amplification.length : ℚ) * 0.8
       then "medium" else "low").data⟩]
  else []

/-- Check 4 (source lines 476-491): `maintenance_bias` when bots exist
and the bot mean absolute size delta is below half the human one. -/
def checkMaintenanceBias (ca : ContentAnalysis) : List BiasIndicator :=
  if 0 < ca.edit_frequency_bot then
    let bots := ca.size_changes.filter (·.is_bot)
    let hums := ca.size_changes.filter (fun c => c.is_bot = false)
    if !bots.isEmpty && !hums.isEmpty then
      let bavg := meanQ (bots.map fun c => ((|c.size_delta| : Int) : ℚ))
      let havg := meanQ (hums.map fun c => ((|c.size_delta| : Int) : ℚ))
      if bavg < havg * 0.5 then
        [⟨"maintenance_bias".data,
          "Bots make smaller edits on average".data, "low".data⟩]
      else []
    else []
  else []

/-- Keyword list of check 5 (source line 494). -/
def controversialKeywords : List (List Char) :=
  wl ["controversy", "debate", "dispute", "criticism", "opposition", "denial", "hesitancy"]

/-- Check 5 (source lines 494-501): `controversial_topic_bias` when the
lowercased title contains a controversial keyword and the bot ratio
exceeds 0.2. -/
def checkControversialTopic (ca : ContentAnalysis) (title : List Char) : List BiasIndicator :=
  if controversialKeywords.any (fun k => containsSub k (toLowerList title)) then
    if bot_fraction ca > 0.2 then
      [⟨"controversial_topic_bias".data,
        "High bot activity on controversial topic".data, "medium".data⟩]
    else []
  else []

/-- Check 6 (source lines 504-524): `biased_language_bias` /
`biased_language_correction` from the mean bias scores of bot vs human
`bias_phrase_analysis` entries (ratio 1.2 either way; medium above
1.5 for the bias direction, correction always low). -/
def checkBiasedLanguage (ca : ContentAnalysis) : List BiasIndicator :=
  let bots := ca.bias_phrase_analysis.filter (·.is_bot)
  let hums := ca.bias_phrase_analysis.filter (fun b => !b.is_bot)
  if !bots.isEmpty && !hums.isEmpty then
    let bavg := meanQ (bots.map (·.bias_score))
    let havg := meanQ (hums.map (·.bias_score))
    if bavg > havg * 1.2 then
      [⟨"biased_language_bias".data,
        "Bots introduce more biased language".data,
        (if bavg > havg * 1.5 then "medium" else "low").data⟩]
    else if havg > bavg * 1.2 then
      [⟨"biased_language_correction".data,
        "Humans introduce more biased language than bots".data, "low".data⟩]
    else []
  else []

/-- Checks 7-8 (source lines 527-561): when both bot and human
`neutrality_analysis` samples exist, `neutrality_bias` /
`neutrality_correction` from the mean neutrality scores (difference
above 0.15; bias high above 0.25 else medium; correction low), and
`neutrality_violation_bias` when bot violations exceed 60% of all
violations (medium above 80%, else low). -/
def checkNeutralityBlock (ca : ContentAnalysis) : List BiasIndicator :=
  let bots := ca.neutrality_analysis.filter (·.is_bot)
  let hums := ca.neutrality_analysis.filter (fun n => !n.is_bot)
  if !bots.isEmpty && !hums.isEmpty then
    let bavg := meanQ (bots.map (·.neutrality_score))
    let havg := meanQ (hums.map (·.neutrality_score))
    let d := |bavg - havg|
    (if d > 0.15 then
      (if bavg < havg then
        [⟨"neutrality_bias".data,
          "Bots show lower neutrality compliance".data,
          (if d > 0.25 then "high" else "medium").data⟩]
      else
        [⟨"neutrality_correction".data,
          "Bots show higher neutrality compliance".data, "low".data⟩])
    else []) ++
    (let bviol : Nat := (bots.map (·.violation_count)).sum
     let hviol : Nat := (hums.map (·.violation_count)).sum
     if 0 < bviol ∨ 0 < hviol then
       if (bviol : ℚ) > ((bviol + hviol : Nat) : ℚ) * 0.6 then
         [⟨"neutrality_violation_bias".data,
           "Bots responsible for neutrality violations".data,
           (if (bviol : ℚ) > ((bviol + hviol : Nat) : ℚ) * 0.8
            then "medium" else "low").data⟩]
       else []
     else [])
  else []

/-- Keyword list of check 9 (source line 565). -/
def polarizationKeywords : List (List Char) :=
  wl ["gun control", "abortion", "immigration", "vaccination", "climate change"]

/-- Check 9 (source lines 566-572): `perception_bias_risk` when the
title contains a high-polarization keyword and the bot ratio exceeds
0.15. -/
def checkPerceptionRisk (ca : ContentAnalysis) (title : List Char) : List BiasIndicator :=
  if polarizationKeywords.any (fun k => containsSub k (toLowerList title)) then
    if bot_fraction ca > 0.15 then
      [⟨"perception_bias_risk".data,
        "High bot activity on polarized topic".data, "low".data⟩]
    else []
  else []

/-- `detect_bias_patterns(content_analysis, page_title)`: the nine
checks' indicators accumulated in source order. -/
def detect_bias_patterns (ca : ContentAnalysis) (title : List Char) : List BiasIndicator :=
  checkHighBotShare ca ++ checkCitationBias ca ++ checkAmplificationBias ca ++
  checkMaintenanceBias ca ++ checkControversialTopic ca title ++
  checkBiasedLanguage ca ++ checkNeutralityBlock ca ++ checkPerceptionRisk ca title

/-! ### Spec-side definitions used to state the claims -/

/-- Spec-side characterization of the recorded amplification events: a
revision is recorded iff its content size exceeds 1.5× the previous
revision's size, with an unset previous size treated as 0 (so the
initial call uses `prev = 0`). -/
def ampEventsSpec : Nat → List Revision → List Amplification
  | _, [] => []
  | prev, r :: rest =>
    (if ((extractContent r).length : ℚ) > (prev : ℚ) * 1.5 then
      [⟨r.revid, r.timestamp, ((extractContent r).length : Int) - (prev : Int),
        is_bot_revision r, userOrUnknown r⟩]
     else []) ++ ampEventsSpec (extractContent r).length rest

/-- The compliance step function of the neutrality score (source lines
421-426). -/
def complianceOf (s : ℚ) : List Char :=
  if 0.85 ≤ s then "good".data
  else if 0.65 ≤ s then "moderate".data
  else "poor".data

/-- Ordering of compliance levels: good (2) is better than moderate (1)
is better than poor (0). -/
def complianceRank (c : List Char) : Nat :=
  if c = "good".data then 2 else if c = "moderate".data then 1 else 0

/-- Two half-open spans `[a.1, a.2)` and `[b.1, b.2)` do not overlap. -/
def spansDisjoint (a b : Nat × Nat) : Prop := a.2 ≤ b.1 ∨ b.2 ≤ a.1

instance (a b : Nat × Nat) : Decidable (spansDisjoint a b) := by
  unfold spansDisjoint; infer_instance

/-! ### Concrete inputs used by witnesses and counterexamples -/

/-- Revision with non-empty content (first of the `KeyError` input). -/
def revC1a : Revision :=
  ⟨some 101, none, some "EditorA".data, none, none, none, some "Some article text.".data, none⟩

/-- Revision whose extracted content is empty (second of the `KeyError`
input). -/
def revC1b : Revision :=
  ⟨some 102, none, some "EditorB".data, none, none, none, some [], none⟩

/-- A one-revision series with non-empty content. -/
def revW5 : Revision :=
  ⟨some 7, none, some "WitnessUser".data, none, none, none, some "hello".data, none⟩

/-- A one-revision series authored by a bot. -/
def revW10 : Revision :=
  ⟨some 8, none, some "CleanupBot".data, none, none, none, some "abc".data, none⟩

/-- A content analysis whose edit tally is 2 bot / 1 human (bot ratio 2/3). -/
def caW6 : ContentAnalysis := ⟨[], [], 2, 1, [], [], [], []⟩

/-- 50 dots, `clearly`, 50 dots: the single match's context window is the
whole 107-character text. -/
def cex7 : List Char :=
  List.replicate 50 '.' ++ "clearly".data ++ List.replicate 50 '.'

/-- The phrase match produced on `This is clearly stated.`. -/
def pmW7 : PhraseMatch :=
  ⟨"loaded_language".data, "clearly".data, "This is clearly stated.".data⟩

/-- `must only` (pattern `lp2`) and `only because` (pattern `un1`)
overlap on `only`. -/
def cex8 : List Char := "must only because".data

/-! ## Lemmas about the matcher -/

theorem litAt_le (w : List Char) : ∀ (s : List Char) (n : Nat),
    litAt s w = some n → n ≤ s.length := by
  induction w with
  | nil => intro s n h; simp [litAt] at h; omega
  | cons c w ih =>
    intro s n h
    cases s with
    | nil => simp [litAt] at h
    | cons d s =>
      by_cases hd : d.toLower = c
      · simp only [litAt, hd, if_pos] at h
        rcases Option.map_eq_some'.mp h with ⟨m, hm, rfl⟩
        have := ih s m hm
        simp only [List.length_cons]
        omega
      · simp [litAt, hd] at h

theorem spacesRun_len (s : List Char) :
    (spacesRun s).1 + (spacesRun s).2.length = s.length := by
  induction s with
  | nil => simp [spacesRun]
  | cons c s ih =>
    by_cases hc : isSpaceChar c
    · simp only [spacesRun, hc, if_pos, List.length_cons]; omega
    · simp [spacesRun, hc]

theorem wordRun_len (s : List Char) :
    (wordRun s).1 + (wordRun s).2.length = s.length := by
  induction s with
  | nil => simp [wordRun]
  | cons c s ih =>
    by_cases hc : isWordChar c
    · simp only [wordRun, hc, if_pos, List.length_cons]; omega
    · simp [wordRun, hc]

theorem matchSeq_le (gs : List (List (List Char))) : ∀ (s : List Char) (n : Nat),
    matchSeq gs s = some n → n ≤ s.length := by
  induction gs with
  | nil => intro s n h; simp [matchSeq] at h; omega
  | cons g gs ih =>
    intro s n h
    simp only [matchSeq] at h
    rcases List.exists_of_findSome?_eq_some h with ⟨w, _, hw⟩
    cases hl : litAt s w with
    | none => rw [hl] at hw; cases hw
    | some m =>
      rw [hl] at hw
      have hm := litAt_le w s m hl
      cases gs with
      | nil =>
        cases hw; exact hm
      | cons g' gs' =>
        simp only at hw
        by_cases hsp : (spacesRun (s.drop m)).1 = 0
        · simp [hsp] at hw
        · simp only [hsp, if_neg, if_false] at hw
          rcases Option.map_eq_some'.mp hw with ⟨k, hk, rfl⟩
          have hk2 := ih _ k hk
          have hsr := spacesRun_len (s.drop m)
          rw [List.length_drop] at hsr
          omega

theorem matchPat_le (p : RPat) (prevW : Bool) (s : List Char) (n : Nat)
    (h : matchPat p prevW s = some n) : n ≤ s.length := by
  unfold matchPat at h
  by_cases hw : prevW
  · simp [hw] at h
  · simp only [hw, if_neg, if_false, Bool.false_eq_true] at h
    cases hm : matchSeq p.groups s with
    | none => rw [hm] at h; cases h
    | some m =>
      rw [hm] at h
      have hml := matchSeq_le p.groups s m hm
      by_cases ht : p.tailWord
      · simp only [ht, if_pos] at h
        by_cases hsp : (spacesRun (s.drop m)).1 = 0
        · simp [hsp] at h
        · simp only [hsp, if_neg, if_false] at h
          by_cases hwr : (wordRun (spacesRun (s.drop m)).2).1 = 0
          · simp [hwr] at h
          · simp only [hwr, if_neg, if_false, Option.some.injEq] at h
            have hsr := spacesRun_len (s.drop m)
            have hwl := wordRun_len (spacesRun (s.drop m)).2
            rw [List.length_drop] at hsr
            omega
      · simp only [ht, if_neg, if_false, Bool.false_eq_true] at h
        by_cases hb : p.closeB
        · simp only [hb, if_pos] at h
          cases hh : (s.drop m).head? with
          | none => rw [hh] at h; cases h; exact hml
          | some c =>
            rw [hh] at h
            by_cases hwc : isWordChar c
            · simp [hwc] at h
            · simp only [hwc, if_neg, if_false, Bool.false_eq_true, Option.some.injEq] at h
              omega
        · simp only [hb, if_neg, if_false, Bool.false_eq_true, Option.some.injEq] at h
          omega

/-- Every span produced by the scanner starts at or after both `pos` and
`minPos`, is well-formed, and ends within the text. -/
theorem scanText_spans (p : RPat) : ∀ (s : List Char) (prevW : Bool) (pos minPos : Nat),
    ∀ sp ∈ scanText p prevW s pos minPos,
      pos ≤ sp.1 ∧ minPos ≤ sp.1 ∧ sp.1 ≤ sp.2 ∧ sp.2 ≤ pos + s.length := by
  intro s
  induction s with
  | nil => intro prevW pos minPos sp hsp; simp [scanText] at hsp
  | cons c s ih =>
    intro prevW pos minPos sp hsp
    simp only [scanText] at hsp
    by_cases hlt : pos < minPos
    · simp only [hlt, if_pos] at hsp
      have := ih (isWordChar c) (pos + 1) minPos sp hsp
      simp only [List.length_cons]
      omega
    · simp only [hlt, if_neg, if_false] at hsp
      cases hm : matchPat p prevW (c :: s) with
      | some n =>
        rw [hm] at hsp
        have hnl := matchPat_le p prevW (c :: s) n hm
        simp only [List.length_cons] at hnl
        rcases List.mem_cons.mp hsp with rfl | hsp'
        · simp only [List.length_cons]
          omega
        · have := ih (isWordChar c) (pos + 1) (pos + max n 1) sp hsp'
          simp only [List.length_cons]
          omega
      | none =>
        rw [hm] at hsp
        have := ih (isWordChar c) (pos + 1) minPos sp hsp
        simp only [List.length_cons]
        omega

/-- The scanner's spans are produced left to right and never overlap:
each span ends no later than the next one starts. -/
theorem scanText_pairwise (p : RPat) : ∀ (s : List Char) (prevW : Bool) (pos minPos : Nat),
    List.Pairwise (fun a b => a.2 ≤ b.1) (scanText p prevW s pos minPos) := by
  intro s
  induction s with
  | nil => intro prevW pos minPos; simp [scanText]
  | cons c s ih =>
    intro prevW pos minPos
    simp only [scanText]
    by_cases hlt : pos < minPos
    · simp only [hlt, if_pos]; exact ih (isWordChar c) (pos + 1) minPos
    · simp only [hlt, if_neg, if_false]
      cases hm : matchPat p prevW (c :: s) with
      | some n =>
        refine List.Pairwise.cons ?_ (ih (isWordChar c) (pos + 1) (pos + max n 1))
        intro b hb
        have := scanText_spans p s (isWordChar c) (pos + 1) (pos + max n 1) b hb
        omega
      | none => exact ih (isWordChar c) (pos + 1) minPos

theorem sliceChars_length (t : List Char) (a b : Nat) :
    (sliceChars t a b).length = min (b - a) (t.length - a) := by
  simp [sliceChars]

theorem dropWhileLen (q : Char → Bool) (l : List Char) :
    (l.dropWhile q).length ≤ l.length := by
  induction l with
  | nil => simp
  | cons c l ih =>
    by_cases hc : q c
    · simp only [List.dropWhile, hc]; simp only [List.length_cons]; omega
    · simp [List.dropWhile, hc]

theorem stripChars_length_le (l : List Char) : (stripChars l).length ≤ l.length := by
  unfold stripChars
  calc ((l.dropWhile isSpaceChar).reverse.dropWhile isSpaceChar).reverse.length
      = ((l.dropWhile isSpaceChar).reverse.dropWhile isSpaceChar).length := by
        rw [List.length_reverse]
    _ ≤ (l.dropWhile isSpaceChar).reverse.length := dropWhileLen _ _
    _ = (l.dropWhile isSpaceChar).length := by rw [List.length_reverse]
    _ ≤ l.length := dropWhileLen _ _

/-- Every recorded phrase match comes from a span of one of the table's
patterns. -/
theorem mem_biasSpanList (t : List Char) (csp : List Char × (Nat × Nat))
    (h : csp ∈ biasSpanList t) :
    ∃ cp ∈ BIAS_PATTERNS, ∃ p ∈ cp.2, csp.1 = cp.1 ∧ csp.2 ∈ patMatches p t := by
  simp only [biasSpanList, List.mem_flatten] at h
  obtain ⟨l1, hl1, hcsp⟩ := h
  simp only [List.mem_map] at hl1
  obtain ⟨cp, hcp, rfl⟩ := hl1
  simp only [List.mem_flatten] at hcsp
  obtain ⟨l2, hl2, hcsp⟩ := hcsp
  simp only [List.mem_map] at hl2
  obtain ⟨p, hp, rfl⟩ := hl2
  simp only [List.mem_map] at hcsp
  obtain ⟨sp, hsp, rfl⟩ := hcsp
  exact ⟨cp, hcp, p, hp, rfl, hsp⟩

/-! ## Claim C7 (corrected) -/

/-- C7 (counterexample to the claim as stated): the claim says every
`PhraseMatch` context is at most 100 characters, but the window is 50
characters on each side of the match PLUS the matched text itself: on
`cex7` (50 dots, `clearly`, 50 dots) the single recorded match has a
107-character context. -/
theorem claim_c7_counterexample :
    ∃ pm ∈ (detect_biased_phrases cex7).biased_phrases, 100 < pm.context.length := by
  decide

/-- C7 (amended): every `PhraseMatch` returned by
`detect_biased_phrases` carries a context window of at most 50
characters on each side of the match, clipped to the text bounds — i.e.
at most the matched text's length plus 100 characters (not 100
characters in total). -/
theorem claim_c7 (t : List Char) (pm : PhraseMatch)
    (h : pm ∈ (detect_biased_phrases t).biased_phrases) :
    pm.context.length ≤ pm.phrase.length + 100 := by
  unfold detect_biased_phrases at h
  by_cases ht : t.isEmpty
  · simp [ht] at h
  · simp only [ht, if_neg, if_false, Bool.false_eq_true] at h
    have h2 : pm ∈ (biasSpanList t).map (fun csp => mkPhraseMatch csp.1 t csp.2) :=
      List.take_subset _ _ h
    simp only [List.mem_map] at h2
    obtain ⟨csp, hcsp, rfl⟩ := h2
    obtain ⟨cp, hcp, p, hp, hcat, hsp⟩ := mem_biasSpanList t csp hcsp
    have hspan := scanText_spans p t false 0 0 csp.2 (by simpa [patMatches] using hsp)
    show (stripChars (sliceChars t (csp.2.1 - 50) (min t.length (csp.2.2 + 50)))).length
        ≤ (sliceChars t csp.2.1 csp.2.2).length + 100
    have h1 := stripChars_length_le (sliceChars t (csp.2.1 - 50) (min t.length (csp.2.2 + 50)))
    have h2 := sliceChars_length t (csp.2.1 - 50) (min t.length (csp.2.2 + 50))
    have h3 := sliceChars_length t csp.2.1 csp.2.2
    omega

/-- C7 witness: the theorem applied to the concrete match on
`This is clearly stated.`. -/
theorem claim_c7_witness :
    pmW7 ∈ (detect_biased_phrases ("This is clearly stated.".data)).biased_phrases ∧
    pmW7.context.length ≤ pmW7.phrase.length + 100 :=
  ⟨by decide, claim_c7 ("This is clearly stated.".data) pmW7 (by decide)⟩

/-! ## Claim C8 (corrected) -/

/-- C8 (counterexample to the claim as stated): the spans recorded and
counted by `detect_biased_phrases` are NOT pairwise non-overlapping
across patterns: on `must only because` the pattern `lp2` records
`must only` (span `[0,9)`) and the pattern `un1` records `only because`
(span `[5,17)`), which overlap on `only`. -/
theorem claim_c8_counterexample :
    biasSpans cex8 = [(0, 9), (5, 17)] ∧
    ¬ List.Pairwise spansDisjoint (biasSpans cex8) := by
  constructor
  · decide
  · decide

/-- C8 (amended): the matches recorded by `detect_biased_phrases` that
come from a SINGLE pattern are pairwise non-overlapping (each pattern is
scanned with `finditer`, which never overlaps its own matches); matches
of different patterns, including patterns of different categories, may
overlap. -/
theorem claim_c8 (t : List Char) (cp : List Char × List RPat) (p : RPat)
    (_hcp : cp ∈ BIAS_PATTERNS) (_hp : p ∈ cp.2) :
    List.Pairwise spansDisjoint (patMatches p t) := by
  have h := scanText_pairwise p t false 0 0
  exact h.imp fun hab => Or.inl hab

/-- C8 witness: the theorem applied to pattern `un1` of the
`unbalanced` category on the counterexample text. -/
theorem claim_c8_witness :
    List.Pairwise spansDisjoint (patMatches un1 cex8) :=
  claim_c8 cex8 ("unbalanced".data, [un1, un2, un3]) un1 (by decide) (by decide)

/-! ## Claim C9 (confirmed) -/

/-- C9: `count_citations` counts exactly the case-insensitive
occurrences of `<ref` followed by non-`>` characters and a `>`,
ignoring `</ref>` closers: the spec's example text yields 2, empty text
yields 0, matching is case-insensitive, and closing tags alone yield 0. -/
theorem claim_c9 :
    count_citations ("<ref>a</ref><ref name=\"x\">b</ref>".data) = 2 ∧
    count_citations [] = 0 ∧
    count_citations ("<REF>Source</REF> and <Ref>Another</Ref>".data) = 2 ∧
    count_citations ("</ref> </ref>".data) = 0 ∧
    count_citations ("<ref name=x><REFY>".data) = 2 := by
  decide

/-! ## Claim C2 (confirmed) -/

/-- The bias score on non-empty text, unfolded. -/
theorem detect_biased_phrases_score (t : List Char) (ht : t.isEmpty = false) :
    (detect_biased_phrases t).bias_score =
      ((detect_biased_phrases t).bias_count : ℚ) / max ((t.length : ℚ) / 1000) 1 := by
  have hl : 0 < t.length := by
    cases t with
    | nil => simp at ht
    | cons c s => simp
  simp [detect_biased_phrases, ht, hl]

/-- C2: for every text, `bias_score = bias_count / max(text_length/1000,
1)`; the score is non-negative (and, being a rational, finite); empty
text yields score 0, count 0 and no phrases; texts of at most 1000
characters have `bias_score = bias_count`. -/
theorem claim_c2 (t : List Char) :
    (detect_biased_phrases t).bias_score =
      ((detect_biased_phrases t).bias_count : ℚ) / max ((t.length : ℚ) / 1000) 1 ∧
    0 ≤ (detect_biased_phrases t).bias_score ∧
    (t = [] → (detect_biased_phrases t).bias_score = 0 ∧
      (detect_biased_phrases t).bias_count = 0 ∧
      (detect_biased_phrases t).biased_phrases = []) ∧
    (t.length ≤ 1000 →
      (detect_biased_phrases t).bias_score = ((detect_biased_phrases t).bias_count : ℚ)) := by
  have hmax1 : (1 : ℚ) ≤ max ((t.length : ℚ) / 1000) 1 := le_max_right _ _
  have hform : (detect_biased_phrases t).bias_score =
      ((detect_biased_phrases t).bias_count : ℚ) / max ((t.length : ℚ) / 1000) 1 := by
    by_cases ht : t.isEmpty
    · have ht' : t = [] := by
        cases t with
        | nil => rfl
        | cons c s => simp at ht
      subst ht'
      simp [detect_biased_phrases]
    · exact detect_biased_phrases_score t (by simpa using ht)
  refine ⟨hform, ?_, ?_, ?_⟩
  · rw [hform]
    exact div_nonneg (Nat.cast_nonneg _) (by linarith)
  · intro ht; subst ht; exact ⟨rfl, rfl, rfl⟩
  · intro hle
    rw [hform]
    have h1 : ((t.length : ℚ) / 1000) ≤ 1 := by
      rw [div_le_one (by norm_num)]
      exact_mod_cast (by exact_mod_cast hle : (t.length : ℚ) ≤ 1000)
    rw [max_eq_right h1, div_one]

/-- C2 witness: the theorem applied at the empty text, discharging both
conditional conjuncts. -/
theorem claim_c2_witness :
    (detect_biased_phrases []).bias_score = 0 ∧
    (detect_biased_phrases []).bias_count = 0 ∧
    (detect_biased_phrases []).biased_phrases = [] ∧
    (detect_biased_phrases []).bias_score = ((detect_biased_phrases []).bias_count : ℚ) := by
  refine ⟨((claim_c2 []).2.2.1 rfl).1, ((claim_c2 []).2.2.1 rfl).2.1,
    ((claim_c2 []).2.2.1 rfl).2.2, (claim_c2 []).2.2.2 (by decide)⟩

/-! ## Claim C3 (confirmed) -/

theorem severityWeight_nonneg (v : Violation) : 0 ≤ severityWeight v := by
  unfold severityWeight
  split_ifs <;> norm_num

/-- The score-reduction loop accumulates exactly the severity weights. -/
theorem foldl_severity (l : List Violation) : ∀ a : ℚ,
    l.foldl (fun acc v =>
      if v.severity = "high".data then acc + 0.25
      else if v.severity = "medium".data then acc + 0.15
      else acc + 0.10) a = a + (l.map severityWeight).sum := by
  induction l with
  | nil => intro a; simp
  | cons v l ih =>
    intro a
    simp only [List.foldl_cons, List.map_cons, List.sum_cons]
    rw [ih]
    unfold severityWeight
    split_ifs <;> ring

/-- The neutrality score equals `max 0 (1 - Σ severity weights)` over
the emitted violations. -/
theorem neutrality_score_eq (t : List Char) :
    (analyze_neutrality_alignment t).neutrality_score =
      max 0 (1 - ((analyze_neutrality_alignment t).violations.map severityWeight).sum) := by
  by_cases ht : t.isEmpty
  · have ht' : t = [] := by
      cases t with
      | nil => rfl
      | cons c s => simp at ht
    subst ht'
    simp [analyze_neutrality_alignment]
  · simp only [analyze_neutrality_alignment, ht, if_neg, if_false, Bool.false_eq_true]
    rw [foldl_severity]
    norm_num

/-- C3: the neutrality score is `max(0, 1 − Σ weights)` with weights
high = 0.25, medium = 0.15, low = 0.10 over the emitted violations, so
it always lies in `[0, 1]`; empty text yields score 1, no violations,
compliance `good`. -/
theorem claim_c3 (t : List Char) :
    (analyze_neutrality_alignment t).neutrality_score =
      max 0 (1 - ((analyze_neutrality_alignment t).violations.map severityWeight).sum) ∧
    0 ≤ (analyze_neutrality_alignment t).neutrality_score ∧
    (analyze_neutrality_alignment t).neutrality_score ≤ 1 ∧
    (t = [] → (analyze_neutrality_alignment t).neutrality_score = 1 ∧
      (analyze_neutrality_alignment t).violations = [] ∧
      (analyze_neutrality_alignment t).compliance = "good".data) := by
  have hs := neutrality_score_eq t
  have hsum : 0 ≤ ((analyze_neutrality_alignment t).violations.map severityWeight).sum := by
    apply List.sum_nonneg
    intro x hx
    simp only [List.mem_map] at hx
    obtain ⟨v, _, rfl⟩ := hx
    exact severityWeight_nonneg v
  refine ⟨hs, ?_, ?_, ?_⟩
  · rw [hs]; exact le_max_left _ _
  · rw [hs]; exact max_le (by norm_num) (by linarith)
  · intro ht; subst ht; exact ⟨rfl, rfl, rfl⟩

/-- C3 witness: the theorem applied at the empty text. -/
theorem claim_c3_witness :
    (analyze_neutrality_alignment []).neutrality_score = 1 ∧
    (analyze_neutrality_alignment []).violations = [] ∧
    (analyze_neutrality_alignment []).compliance = "good".data :=
  (claim_c3 []).2.2.2 rfl

/-! ## Claim C4 (confirmed) -/

/-- The compliance field is the fixed step function of the score. -/
theorem neutrality_compliance_eq (t : List Char) :
    (analyze_neutrality_alignment t).compliance =
      complianceOf (analyze_neutrality_alignment t).neutrality_score := by
  by_cases ht : t.isEmpty
  · have ht' : t = [] := by
      cases t with
      | nil => rfl
      | cons c s => simp at ht
    subst ht'
    show "good".data = complianceOf 1
    norm_num [complianceOf]
  · simp only [analyze_neutrality_alignment, ht, if_neg, if_false, Bool.false_eq_true]
    rfl

theorem complianceRank_good : complianceRank ("good".data) = 2 := by decide

theorem complianceRank_moderate : complianceRank ("moderate".data) = 1 := by decide

theorem complianceRank_poor : complianceRank ("poor".data) = 0 := by decide

/-- C4: compliance is the monotone step function of the neutrality
score — `good` for score ≥ 0.85, `moderate` for 0.65 ≤ score < 0.85,
`poor` for score < 0.65 — hence a text with a strictly larger score
never has a worse compliance level. -/
theorem claim_c4 :
    (∀ t : List Char,
      (0.85 ≤ (analyze_neutrality_alignment t).neutrality_score →
        (analyze_neutrality_alignment t).compliance = "good".data) ∧
      (0.65 ≤ (analyze_neutrality_alignment t).neutrality_score ∧
          (analyze_neutrality_alignment t).neutrality_score < 0.85 →
        (analyze_neutrality_alignment t).compliance = "moderate".data) ∧
      ((analyze_neutrality_alignment t).neutrality_score < 0.65 →
        (analyze_neutrality_alignment t).compliance = "poor".data)) ∧
    (∀ t1 t2 : List Char,
      (analyze_neutrality_alignment t2).neutrality_score <
        (analyze_neutrality_alignment t1).neutrality_score →
      complianceRank ((analyze_neutrality_alignment t2).compliance) ≤
        complianceRank ((analyze_neutrality_alignment t1).compliance)) := by
  constructor
  · intro t
    rw [neutrality_compliance_eq t]
    unfold complianceOf
    refine ⟨?_, ?_, ?_⟩
    · intro h; rw [if_pos h]
    · intro ⟨h1, h2⟩
      rw [if_neg (by linarith), if_pos h1]
    · intro h
      rw [if_neg (by linarith), if_neg (by linarith)]
  · intro t1 t2 hlt
    rw [neutrality_compliance_eq t1, neutrality_compliance_eq t2]
    unfold complianceOf
    split_ifs with h1 h2 h3 h4 h5 <;>
      first
        | decide
        | (exfalso; linarith)

/-- C4 witness: the step function and the monotonicity applied at the
empty text (score 1, `good`) and `We believe this` (score 0.75,
`moderate`). -/
theorem claim_c4_witness :
    (analyze_neutrality_alignment []).compliance = "good".data ∧
    complianceRank ((analyze_neutrality_alignment ("We believe this".data)).compliance) ≤
      complianceRank ((analyze_neutrality_alignment []).compliance) := by
  have h1 : (analyze_neutrality_alignment []).neutrality_score = 1 := rfl
  have hv : (analyze_neutrality_alignment ("We believe this".data)).violations =
      [⟨"first_person_pov".data,
        "Text contains 1 first-person statements".data, "high".data⟩] := by
    decide
  have h2 : (analyze_neutrality_alignment ("We believe this".data)).neutrality_score = 3 / 4 := by
    rw [neutrality_score_eq, hv]
    simp only [List.map_cons, List.map_nil, List.sum_cons, List.sum_nil, severityWeight]
    norm_num
  exact ⟨(claim_c4.1 []).1 (by rw [h1]; norm_num),
    claim_c4.2 [] ("We believe this".data) (by rw [h1, h2]; norm_num)⟩

/-! ## Claim C1 (code bug) -/

/-- C1: the claim (and the spec's totality guarantee) says the
revision-series analyzer never fails on missing/empty content.  It does:
for a series whose SECOND revision has empty content, the empty-text
early return of `analyze_neutrality_alignment` lacks the
`violation_count` key, and building the `neutrality_analysis` entry
reads exactly that key (source line 232) — a `KeyError`. -/
theorem claim_c1 :
    analyze_content_changes [revC1a, revC1b] =
      Except.error ("KeyError: violation_count".data) := by
  rfl

/-! ## Claim C5 (confirmed) -/

/-- The amplification events recorded by the loop are exactly the
spec-side characterization, with the initial previous size
`pS.getD 0`. -/
theorem analyzeLoop_ok_amp : ∀ (revs : List Revision) (pS pC pB : Option Nat)
    (pN : Option ℚ) (ca : ContentAnalysis),
    analyzeLoop revs pS pC pB pN = .ok ca →
    ca.content_amplification = ampEventsSpec (pS.getD 0) revs := by
  intro revs
  induction revs with
  | nil =>
    intro pS pC pB pN ca h
    simp only [analyzeLoop] at h
    cases h
    rfl
  | cons rev rest ih =>
    intro pS pC pB pN ca h
    simp only [analyzeLoop] at h
    cases hn : stepNeu rev (analyze_neutrality_alignment (extractContent rev)) pN with
    | error e => rw [hn] at h; cases h
    | ok ne =>
      rw [hn] at h
      cases hr : analyzeLoop rest (some (extractContent rev).length)
          (some (count_citations (extractContent rev)))
          (some (detect_biased_phrases (extractContent rev)).bias_count)
          (some (analyze_neutrality_alignment (extractContent rev)).neutrality_score) with
      | error e => rw [hr] at h; cases h
      | ok ca' =>
        rw [hr] at h
        cases h
        have htail := ih _ _ _ _ ca' hr
        show stepAmp rev (extractContent rev).length pS ++ ca'.content_amplification = _
        rw [htail]
        simp only [ampEventsSpec, stepAmp, Option.getD_some]

/-- C5: a revision is recorded as a content-amplification event iff its
content size exceeds 1.5× the previous revision's size, the unset
previous size being treated as 0; in particular the first revision of a
series is recorded iff its content is non-empty. -/
theorem claim_c5 (revs : List Revision) (ca : ContentAnalysis)
    (h : analyze_content_changes revs = .ok ca) :
    ca.content_amplification = ampEventsSpec 0 revs ∧
    (∀ r rest, revs = r :: rest →
      ca.content_amplification =
        (if 0 < (extractContent r).length then
          [⟨r.revid, r.timestamp, ((extractContent r).length : Int), is_bot_revision r,
            userOrUnknown r⟩]
         else []) ++ ampEventsSpec (extractContent r).length rest) := by
  have h0 := analyzeLoop_ok_amp revs none none none none ca h
  refine ⟨h0, ?_⟩
  intro r rest hrev
  subst hrev
  rw [h0]
  show ampEventsSpec 0 (r :: rest) = _
  simp only [ampEventsSpec]
  congr 1
  have hcond : (((extractContent r).length : ℚ) > ((0 : Nat) : ℚ) * 1.5) ↔
      0 < (extractContent r).length := by
    push_cast
    constructor
    · intro hgt
      exact_mod_cast (by linarith : (0 : ℚ) < ((extractContent r).length : ℚ))
    · intro hpos
      have : (0 : ℚ) < ((extractContent r).length : ℚ) := by exact_mod_cast hpos
      linarith
  by_cases hl : 0 < (extractContent r).length
  · rw [if_pos (hcond.mpr hl), if_pos hl]
    norm_num
  · rw [if_neg (fun hgt => hl (hcond.mp hgt)), if_neg hl]

/-- C5 witness: the theorem applied to a concrete one-revision series
(non-empty content, so the first revision is recorded). -/
theorem claim_c5_witness :
    ∃ ca, analyze_content_changes [revW5] = Except.ok ca ∧
      ca.content_amplification = ampEventsSpec 0 [revW5] := by
  obtain ⟨ca, hca⟩ : ∃ ca, analyze_content_changes [revW5] = Except.ok ca := ⟨_, rfl⟩
  exact ⟨ca, hca, (claim_c5 [revW5] ca hca).1⟩

/-! ## Claim C10 (confirmed) -/

/-- The edit-frequency tally classifies each revision exactly once. -/
theorem analyzeLoop_ok_freq : ∀ (revs : List Revision) (pS pC pB : Option Nat)
    (pN : Option ℚ) (ca : ContentAnalysis),
    analyzeLoop revs pS pC pB pN = .ok ca →
    ca.edit_frequency_bot + ca.edit_frequency_human = revs.length := by
  intro revs
  induction revs with
  | nil =>
    intro pS pC pB pN ca h
    simp only [analyzeLoop] at h
    cases h
    rfl
  | cons rev rest ih =>
    intro pS pC pB pN ca h
    simp only [analyzeLoop] at h
    cases hn : stepNeu rev (analyze_neutrality_alignment (extractContent rev)) pN with
    | error e => rw [hn] at h; cases h
    | ok ne =>
      rw [hn] at h
      cases hr : analyzeLoop rest (some (extractContent rev).length)
          (some (count_citations (extractContent rev)))
          (some (detect_biased_phrases (extractContent rev)).bias_count)
          (some (analyze_neutrality_alignment (extractContent rev)).neutrality_score) with
      | error e => rw [hr] at h; cases h
      | ok ca' =>
        rw [hr] at h
        cases h
        have htail := ih _ _ _ _ ca' hr
        show (if is_bot_revision rev then 1 else 0) + ca'.edit_frequency_bot +
            ((if is_bot_revision rev then 0 else 1) + ca'.edit_frequency_human) =
            (rev :: rest).length
        simp only [List.length_cons]
        cases is_bot_revision rev <;> simp <;> omega

/-- C10: every revision is tallied exactly once as bot or human, so the
recorded bot count plus human count equals the input length, and the
bot fraction the aggregator computes from the tally lies in `[0, 1]`
(and is 0 for the empty series). -/
theorem claim_c10 :
    (∀ (revs : List Revision) (ca : ContentAnalysis),
      analyze_content_changes revs = .ok ca →
      ca.edit_frequency_bot + ca.edit_frequency_human = revs.length ∧
      0 ≤ bot_fraction ca ∧ bot_fraction ca ≤ 1) ∧
    (∀ ca : ContentAnalysis, analyze_content_changes [] = .ok ca →
      bot_fraction ca = 0) := by
  have hb : ∀ ca : ContentAnalysis, 0 ≤ bot_fraction ca ∧ bot_fraction ca ≤ 1 := by
    intro ca
    unfold bot_fraction
    by_cases hT : 0 < ca.edit_frequency_bot + ca.edit_frequency_human
    · rw [if_pos hT]
      constructor
      · exact div_nonneg (Nat.cast_nonneg _) (Nat.cast_nonneg _)
      · rw [div_le_one (by exact_mod_cast hT)]
        exact_mod_cast Nat.le_add_right _ _
    · rw [if_neg hT]
      norm_num
  constructor
  · intro revs ca h
    exact ⟨analyzeLoop_ok_freq revs none none none none ca h, hb ca⟩
  · intro ca h
    simp only [analyze_content_changes, analyzeLoop] at h
    cases h
    rfl

/-- C10 witness: the theorem applied to a concrete one-revision series
authored by a bot. -/
theorem claim_c10_witness :
    ∃ ca, analyze_content_changes [revW10] = Except.ok ca ∧
      ca.edit_frequency_bot + ca.edit_frequency_human = 1 ∧
      bot_fraction ca ≤ 1 ∧ bot_fraction (ContentAnalysis.mk [] [] 0 0 [] [] [] []) = 0 := by
  obtain ⟨ca, hca⟩ : ∃ ca, analyze_content_changes [revW10] = Except.ok ca := ⟨_, rfl⟩
  exact ⟨ca, hca, (claim_c10.1 [revW10] ca hca).1, (claim_c10.1 [revW10] ca hca).2.2,
    claim_c10.2 _ rfl⟩

/-! ## Claim C6 (confirmed) -/

theorem checkCitationBias_itype (ca : ContentAnalysis) (i : BiasIndicator)
    (h : i ∈ checkCitationBias ca) : i.itype ≠ "high_bot_ratio".data := by
  simp only [checkCitationBias] at h
  split_ifs at h <;> simp_all

theorem checkAmplificationBias_itype (ca : ContentAnalysis) (i : BiasIndicator)
    (h : i ∈ checkAmplificationBias ca) : i.itype ≠ "high_bot_ratio".data := by
  simp only [checkAmplificationBias] at h
  split_ifs at h <;> simp_all

theorem checkMaintenanceBias_itype (ca : ContentAnalysis) (i : BiasIndicator)
    (h : i ∈ checkMaintenanceBias ca) : i.itype ≠ "high_bot_ratio".data := by
  simp only [checkMaintenanceBias] at h
  split_ifs at h <;> simp_all

theorem checkControversialTopic_itype (ca : ContentAnalysis) (title : List Char)
    (i : BiasIndicator) (h : i ∈ checkControversialTopic ca title) :
    i.itype ≠ "high_bot_ratio".data := by
  simp only [checkControversialTopic] at h
  split_ifs at h <;> simp_all

theorem checkBiasedLanguage_itype (ca : ContentAnalysis) (i : BiasIndicator)
    (h : i ∈ checkBiasedLanguage ca) : i.itype ≠ "high_bot_ratio".data := by
  simp only [checkBiasedLanguage] at h
  split_ifs at h <;> simp_all

theorem checkNeutralityBlock_itype (ca : ContentAnalysis) (i : BiasIndicator)
    (h : i ∈ checkNeutralityBlock ca) : i.itype ≠ "high_bot_ratio".data := by
  simp only [checkNeutralityBlock] at h
  split_ifs at h <;> fin_cases h <;> decide

theorem checkPerceptionRisk_itype (ca : ContentAnalysis) (title : List Char)
    (i : BiasIndicator) (h : i ∈ checkPerceptionRisk ca title) :
    i.itype ≠ "high_bot_ratio".data := by
  simp only [checkPerceptionRisk] at h
  split_ifs at h <;> simp_all

/-- An indicator of type `high_bot_ratio` can only come from the first
check. -/
theorem high_bot_ratio_mem (ca : ContentAnalysis) (title : List Char)
    (i : BiasIndicator) (hi : i ∈ detect_bias_patterns ca title)
    (hty : i.itype = "high_bot_ratio".data) : i ∈ checkHighBotShare ca := by
  unfold detect_bias_patterns at hi
  simp only [List.mem_append] at hi
  rcases hi with ((((((h | h) | h) | h) | h) | h) | h) | h
  · exact h
  · exact absurd hty (checkCitationBias_itype ca i h)
  · exact absurd hty (checkAmplificationBias_itype ca i h)
  · exact absurd hty (checkMaintenanceBias_itype ca i h)
  · exact absurd hty (checkControversialTopic_itype ca title i h)
  · exact absurd hty (checkBiasedLanguage_itype ca i h)
  · exact absurd hty (checkNeutralityBlock_itype ca i h)
  · exact absurd hty (checkPerceptionRisk_itype ca title i h)

/-- C6: the aggregator emits a `high_bot_ratio` indicator iff the bot
fraction of total edits exceeds 0.3, with severity `high` above 0.6,
`medium` above 0.4, and `low` otherwise. -/
theorem claim_c6 (ca : ContentAnalysis) (title : List Char) :
    ((∃ i ∈ detect_bias_patterns ca title, i.itype = "high_bot_ratio".data) ↔
      bot_fraction ca > 0.3) ∧
    (∀ i ∈ detect_bias_patterns ca title, i.itype = "high_bot_ratio".data →
      i.severity = (if bot_fraction ca > 0.6 then "high"
                    else if bot_fraction ca > 0.4 then "medium" else "low").data) := by
  constructor
  · constructor
    · rintro ⟨i, hi, hty⟩
      have hm := high_bot_ratio_mem ca title i hi hty
      unfold checkHighBotShare at hm
      by_cases hc : bot_fraction ca > 0.3
      · exact hc
      · rw [if_neg hc] at hm
        cases hm
    · intro hc
      refine ⟨⟨"high_bot_ratio".data,
        "Significant bot edit ratio may indicate automated bias".data,
        (if bot_fraction ca > 0.6 then "high"
         else if bot_fraction ca > 0.4 then "medium" else "low").data⟩, ?_, rfl⟩
      unfold detect_bias_patterns
      refine List.mem_append_left _ (List.mem_append_left _ (List.mem_append_left _
        (List.mem_append_left _ (List.mem_append_left _ (List.mem_append_left _
        (List.mem_append_left _ ?_))))))
      unfold checkHighBotShare
      rw [if_pos hc]
      exact List.mem_singleton.mpr rfl
  · intro i hi hty
    have hm := high_bot_ratio_mem ca title i hi hty
    unfold checkHighBotShare at hm
    by_cases hc : bot_fraction ca > 0.3
    · rw [if_pos hc] at hm
      have := List.mem_singleton.mp hm
      subst this
      rfl
    · rw [if_neg hc] at hm
      cases hm

/-- C6 witness: on a tally of 2 bot / 1 human edits (fraction 2/3) the
indicator appears with severity `high`. -/
theorem claim_c6_witness :
    (∃ i ∈ detect_bias_patterns caW6 ("Example page".data),
      i.itype = "high_bot_ratio".data) ∧
    (∀ i ∈ detect_bias_patterns caW6 ("Example page".data),
      i.itype = "high_bot_ratio".data → i.severity = "high".data) := by
  have hfrac : bot_fraction caW6 = 2 / 3 := rfl
  have h3 : bot_fraction caW6 > 0.3 := by rw [hfrac]; norm_num
  have h6 : bot_fraction caW6 > 0.6 := by rw [hfrac]; norm_num
  refine ⟨(claim_c6 caW6 ("Example page".data)).1.mpr h3, ?_⟩
  intro i hi hty
  have := (claim_c6 caW6 ("Example page".data)).2 i hi hty
  rw [this, if_pos h6]
